import Mathlib

/-!
Verification development for the order-creation microservice
(`services/order/main.py`).

The service exposes three handlers over a persisted order store and a
remote product catalog:

* `create_order` — fetches price/stock for a product over HTTP, computes
  `total = float(product["price"]) * order.quantity` (IEEE-754 binary64
  arithmetic), checks `product["stock"] < order.quantity`, and on success
  persists a new `Order` row (`total` lands in a `Numeric(10,2)` column,
  so it is quantized to two decimal places; `db.refresh` reloads the
  quantized value into the returned record).
* `get_order` — single-key lookup, `404 "not found"` when absent.
* `healthz` — constant `"ok"`.

The embedding below is exact: Python floats are modelled as rational
numbers lying on the binary64 grid, with round-to-nearest-even applied
at each conversion and multiplication, and the database column rounds
half away from zero to two decimal places (PostgreSQL `numeric(10,2)`
semantics).  Binary64 overflow (≥ 2^1024) and subnormal magnitudes are
outside the range exercised here and are not modelled.
-/

namespace OrderService

/-! ### Exact model of binary64 rounding

All definitions here are written so that the kernel can evaluate them on
concrete rationals (no well-founded recursion, no `Int.floor` instance,
no `zpow`); bridge lemmas relate them to the Mathlib notions. -/

/-- `⌊q⌋` computed by flooring division of numerator by denominator. -/
def qfloor (q : ℚ) : ℤ := q.num.fdiv q.den

/-- `pow2 e = 2^e` as a rational, for an integer (possibly negative) `e`. -/
def pow2 (e : ℤ) : ℚ :=
  if 0 ≤ e then ((2 ^ e.toNat : ℕ) : ℚ) else ((2 ^ (-e).toNat : ℕ) : ℚ)⁻¹

/-- `⌊log₂ n⌋` by repeated halving, fuel-recursive. -/
def log2Aux : ℕ → ℕ → ℕ
  | 0, _ => 0
  | fuel + 1, n => if n ≤ 1 then 0 else log2Aux fuel (n / 2) + 1

/-- `⌊log₂ n⌋` for `n ≥ 1` (0 at 0). -/
def nlog2 (n : ℕ) : ℕ := log2Aux n n

/-- `⌊log₂ a⌋` for a positive rational `a`: a first estimate from the
bit lengths of numerator and denominator, corrected by comparison. -/
def qlog2 (a : ℚ) : ℤ :=
  let e0 : ℤ := (nlog2 a.num.natAbs : ℤ) - (nlog2 a.den : ℤ)
  if pow2 (e0 + 1) ≤ a then e0 + 1
  else if pow2 e0 ≤ a then e0
  else e0 - 1

/-- Round a rational to the nearest integer, ties to even. -/
def rndHalfEven (m : ℚ) : ℤ :=
  if m - qfloor m < 1/2 then qfloor m
  else if 1/2 < m - qfloor m then qfloor m + 1
  else if qfloor m % 2 = 0 then qfloor m else qfloor m + 1

/-- Round a positive rational to the binary64 grid (53 significant bits),
round-to-nearest, ties to even. -/
def roundPos (a : ℚ) : ℚ :=
  pow2 (qlog2 a - 52) * rndHalfEven (a / pow2 (qlog2 a - 52))

/-- Round any rational to the nearest binary64 value (sign-symmetric, as
IEEE-754 round-to-nearest-even is). -/
def roundB64 (x : ℚ) : ℚ :=
  if x = 0 then 0
  else if x < 0 then - roundPos (-x)
  else roundPos x

/-- Round a rational to the nearest integer, ties away from zero —
PostgreSQL `numeric` rounding. -/
def rndHalfAway (x : ℚ) : ℤ :=
  if 0 ≤ x then qfloor (x + 1/2) else - qfloor (-x + 1/2)

/-- Storage into the `Numeric(10,2)` column `total`: quantize to two
decimal places, ties away from zero. -/
def quantize2 (x : ℚ) : ℚ := (rndHalfAway (x * 100) : ℚ) / 100

/-! ### Python JSON values, as produced by `r.json()` -/

/-- A JSON leaf value as decoded by Python.  A `num` carries the exact
value of the decimal literal in the JSON text; the binary64 conversion
performed by the decoder (for non-integer literals) and/or by `float()`
is applied by `pyFloat`, which is where the code consumes the value. -/
inductive PyVal where
  | num (q : ℚ)
  | str (s : String)
  | bool (b : Bool)
  | null
  | list
  deriving DecidableEq

/-- Digits of a decimal string, or `none` if empty or non-digit. -/
def parseUDigits (cs : List Char) : Option ℕ :=
  if cs.isEmpty then none
  else if cs.all Char.isDigit then
    some (cs.foldl (fun a c => a * 10 + (c.toNat - 48)) 0)
  else none

/-- Mantissa part of a Python float literal: `digits`, `digits.digits`,
`digits.` or `.digits`. -/
def parseMantissa (cs : List Char) : Option ℚ :=
  match cs.span (fun c => c ≠ '.') with
  | (ip, []) => (parseUDigits ip).map (fun n => (n : ℚ))
  | (ip, _ :: fp) =>
    if fp.any (fun c => c = '.') then none
    else if ip.isEmpty && fp.isEmpty then none
    else if ip.all Char.isDigit && fp.all Char.isDigit then
      some ((ip.foldl (fun a c => a * 10 + (c.toNat - 48)) 0 : ℕ) +
            (fp.foldl (fun a c => a * 10 + (c.toNat - 48)) 0 : ℕ) / (10 : ℚ) ^ fp.length)
    else none

/-- Optional sign followed by digits: the exponent of a float literal. -/
def parseExp (cs : List Char) : Option ℤ :=
  match cs with
  | '+' :: ds => (parseUDigits ds).map (fun n => (n : ℤ))
  | '-' :: ds => (parseUDigits ds).map (fun n => -(n : ℤ))
  | ds => (parseUDigits ds).map (fun n => (n : ℤ))

/-- Python `float(s)` on a string: sign, mantissa, optional exponent.
(`inf`/`nan` spellings, surrounding whitespace and `_` separators are
not modelled; none are producible by the catalog JSON here.) -/
def pyParseFloat (s : String) : Option ℚ :=
  let p : ℚ × List Char :=
    match s.data with
    | '+' :: r => (1, r)
    | '-' :: r => (-1, r)
    | r => (1, r)
  match p.2.span (fun c => c ≠ 'e' && c ≠ 'E') with
  | (man, []) => (parseMantissa man).map (fun m => roundB64 (p.1 * m))
  | (man, _ :: ex) => do
      let m ← parseMantissa man
      let e ← parseExp ex
      pure (roundB64 (p.1 * m * (10 : ℚ) ^ e))

/-- Python `float(v)`: numbers convert (rounding to binary64), booleans
are integers, numeric strings parse; `None`/lists raise `TypeError`. -/
def pyFloat (v : PyVal) : Option ℚ :=
  match v with
  | .num q => some (roundB64 q)
  | .str s => pyParseFloat s
  | .bool b => some (if b then 1 else 0)
  | .null => none
  | .list => none

/-- Python `v < n` for an integer `n` on the right: numbers and booleans
compare by value, other operand types raise `TypeError`. -/
def pyLtInt (v : PyVal) (n : ℤ) : Option Bool :=
  match v with
  | .num q => some (decide (q < (n : ℚ)))
  | .bool b => some (decide ((if b then (1 : ℚ) else 0) < (n : ℚ)))
  | _ => none

/-! ### Data model -/

/-- Request body of `POST /orders` (pydantic `OrderCreate`). -/
structure OrderCreate where
  user_id : ℤ
  product_id : ℤ
  quantity : ℤ
  deriving DecidableEq

/-- A persisted `orders` row, as returned after `db.refresh`:
`total` holds the value of the `Numeric(10,2)` column. -/
structure OrderRec where
  id : ℤ
  user_id : ℤ
  product_id : ℤ
  quantity : ℤ
  total : ℚ
  status : String
  created_at : ℕ
  deriving DecidableEq

/-- Response of `GET http://product-catalog:8080/products/{id}`:
an HTTP status code and, when the body decodes as a JSON object,
its key/value pairs (`none` models an undecodable or non-object body,
on which any subscript raises). -/
structure CatalogResp where
  status_code : ℕ
  body : Option (List (String × PyVal))
  deriving DecidableEq

/-- How a request terminates abnormally: an `HTTPException(status, detail)`
raised by the handler, or an unhandled Python exception (surfacing as a
generic 5xx server error). -/
inductive Err where
  | http (status : ℕ) (detail : String)
  | pyException (msg : String)
  deriving DecidableEq

instance {ε α : Type} [DecidableEq ε] [DecidableEq α] :
    DecidableEq (Except ε α)
  | .error a, .error b => decidable_of_iff (a = b) (by simp)
  | .error _, .ok _ => isFalse (by simp)
  | .ok _, .error _ => isFalse (by simp)
  | .ok a, .ok b => decidable_of_iff (a = b) (by simp)

/-- The state a request executes against: the catalog collaborator
(a response per product id), the persisted order store, and the current
UTC clock reading used for `created_at`. -/
structure World where
  catalog : ℤ → CatalogResp
  orders : List OrderRec
  now : ℕ

/-! ### Handlers -/

/-- `GET /healthz`: constant `"ok"`, FastAPI default status 200,
no state consulted or changed. -/
def healthz (w : World) : (String × ℕ) × World := (("ok", 200), w)

/-- `POST /orders` (`create_order` in `main.py`), step for step:
fetch the catalog response; any status other than 200 is
`HTTPException(400, "product not found")`; read `product["price"]`,
convert with `float()`, multiply by `order.quantity` (binary64);
read `product["stock"]` and compare with `order.quantity`; if
insufficient, `HTTPException(400, "insufficient stock")`; otherwise
insert the row (id assigned by the serial sequence: one past the
current row count; `status` defaults to `"PENDING"`, `created_at` to
`utcnow`, `total` quantized by the `Numeric(10,2)` column) and return
the refreshed record. -/
def create_order (order : OrderCreate) (w : World) : Except Err OrderRec × World :=
  let r := w.catalog order.product_id
  if r.status_code ≠ 200 then
    (.error (.http 400 "product not found"), w)
  else
    match r.body with
    | none => (.error (.pyException "r.json() did not yield an object"), w)
    | some product =>
      match product.lookup "price" with
      | none => (.error (.pyException "KeyError: price"), w)
      | some pv =>
        match pyFloat pv with
        | none => (.error (.pyException "float() argument not convertible"), w)
        | some pf =>
          let total := roundB64 (pf * roundB64 (order.quantity : ℚ))
          match product.lookup "stock" with
          | none => (.error (.pyException "KeyError: stock"), w)
          | some sv =>
            match pyLtInt sv order.quantity with
            | none => (.error (.pyException "TypeError: unorderable types"), w)
            | some lt =>
              if lt then
                (.error (.http 400 "insufficient stock"), w)
              else
                let rec0 : OrderRec :=
                  { id := (w.orders.length : ℤ) + 1
                    user_id := order.user_id
                    product_id := order.product_id
                    quantity := order.quantity
                    total := quantize2 total
                    status := "PENDING"
                    created_at := w.now }
                (.ok rec0, { w with orders := w.orders ++ [rec0] })

/-- `GET /orders/{order_id}` (`get_order` in `main.py`): first row whose
`id` matches, else `HTTPException(404, "not found")`.  The session only
queries; the store is returned untouched. -/
def get_order (order_id : ℤ) (w : World) : Except Err OrderRec × World :=
  match w.orders.find? (fun o => o.id == order_id) with
  | none => (.error (.http 404 "not found"), w)
  | some o => (.ok o, w)

/-- The shape of every store reachable from an empty table through
`create_order` alone (no deletes exist): the `i`-th row carries the
`i+1`-st serial id. -/
def StoreWF (l : List OrderRec) : Prop :=
  l.map OrderRec.id = (List.range l.length).map (fun i : ℕ => (i : ℤ) + 1)

instance (l : List OrderRec) : Decidable (StoreWF l) := by
  unfold StoreWF; infer_instance

/-! ### Concrete states used as witnesses -/

/-- A catalog holding the documented demo product: id 42, price 9.99,
stock 10; every other id answers 404. -/
def demoCatalog : ℤ → CatalogResp := fun pid =>
  if pid = 42 then ⟨200, some [("price", .num (999/100)), ("stock", .num 10)]⟩
  else ⟨404, some [("detail", .str "Not Found")]⟩

/-- Fresh service state over `demoCatalog`: empty order table. -/
def demoWorld : World := ⟨demoCatalog, [], 1735689600⟩

/-- A catalog whose one product carries a sub-cent price (9.999) —
legal JSON for the collaborator, finer than the `Numeric(10,2)` column. -/
def subCentCatalog : ℤ → CatalogResp := fun _ =>
  ⟨200, some [("price", .num (9999/1000)), ("stock", .num 5)]⟩

/-- Fresh service state over `subCentCatalog`. -/
def subCentWorld : World := ⟨subCentCatalog, [], 1735689600⟩

/-- A catalog answering 200 with a JSON object that lacks `"price"`. -/
def noPriceCatalog : ℤ → CatalogResp := fun _ =>
  ⟨200, some [("stock", .num 5)]⟩

/-- Fresh service state over `noPriceCatalog`. -/
def noPriceWorld : World := ⟨noPriceCatalog, [], 1735689600⟩

/-- The row produced by the demo scenario
`createOrder(user_id 1, product_id 42, quantity 3)`. -/
def demoRec : OrderRec :=
  { id := 1, user_id := 1, product_id := 42, quantity := 3,
    total := 2997/100, status := "PENDING", created_at := 1735689600 }

/-- Service state whose table already holds `demoRec`. -/
def storedWorld : World := ⟨demoCatalog, [demoRec], 1735689600⟩

/-! ### Bridge lemmas: the computable primitives agree with Mathlib -/

theorem qfloor_eq (q : ℚ) : qfloor q = ⌊q⌋ := by
  rw [Rat.floor_def]
  exact Int.fdiv_eq_ediv _ (Int.natCast_nonneg _)

theorem pow2_natCast (k : ℕ) : pow2 (k : ℤ) = ((2 ^ k : ℕ) : ℚ) := by
  unfold pow2
  rw [if_pos (Int.natCast_nonneg k), Int.toNat_natCast]

theorem pow2_eq_zpow (e : ℤ) : pow2 e = (2 : ℚ) ^ e := by
  unfold pow2
  split
  · next h =>
    rw [Nat.cast_pow, Nat.cast_ofNat, ← zpow_natCast, Int.toNat_of_nonneg h]
  · next h =>
    rw [Nat.cast_pow, Nat.cast_ofNat, ← zpow_natCast, Int.toNat_of_nonneg (by omega : (0:ℤ) ≤ -e),
      ← zpow_neg, neg_neg]

theorem pow2_pos (e : ℤ) : 0 < pow2 e := by
  rw [pow2_eq_zpow]; exact zpow_pos (by norm_num) e

theorem pow2_add (a b : ℤ) : pow2 (a + b) = pow2 a * pow2 b := by
  rw [pow2_eq_zpow, pow2_eq_zpow, pow2_eq_zpow]
  exact zpow_add₀ (by norm_num) a b

theorem pow2_le_pow2 {a b : ℤ} (h : a ≤ b) : pow2 a ≤ pow2 b := by
  rw [pow2_eq_zpow, pow2_eq_zpow]
  exact zpow_le_zpow_right₀ (by norm_num) h

theorem pow2_lt_pow2 {a b : ℤ} (h : a < b) : pow2 a < pow2 b := by
  rw [pow2_eq_zpow, pow2_eq_zpow]
  exact zpow_lt_zpow_right₀ (by norm_num) h

theorem log2Aux_spec : ∀ (fuel n : ℕ), 1 ≤ n → n ≤ fuel →
    2 ^ log2Aux fuel n ≤ n ∧ n < 2 ^ (log2Aux fuel n + 1) := by
  intro fuel
  induction fuel with
  | zero => intro n h1 h2; omega
  | succ fuel ih =>
    intro n h1 h2
    by_cases hn : n ≤ 1
    · have : n = 1 := by omega
      simp [log2Aux, hn, this]
    · have hrec := ih (n / 2) (by omega) (by omega)
      have hstep : log2Aux (fuel + 1) n = log2Aux fuel (n / 2) + 1 := by
        simp [log2Aux, hn]
      rw [hstep, pow_succ, pow_succ, pow_succ]
      rcases hrec with ⟨hl, hu⟩
      constructor
      · calc 2 ^ log2Aux fuel (n / 2) * 2 ≤ (n / 2) * 2 := by omega
          _ ≤ n := by omega
      · have : n / 2 + 1 ≤ 2 ^ (log2Aux fuel (n / 2) + 1) := hu
        rw [pow_succ] at this
        omega

theorem nlog2_spec (n : ℕ) (h : 1 ≤ n) :
    2 ^ nlog2 n ≤ n ∧ n < 2 ^ (nlog2 n + 1) :=
  log2Aux_spec n n h le_rfl

theorem qlog2_spec (a : ℚ) (ha : 0 < a) :
    pow2 (qlog2 a) ≤ a ∧ a < pow2 (qlog2 a + 1) := by
  have hnum : 0 < a.num := Rat.num_pos.mpr ha
  have hd : 0 < (a.den : ℚ) := by
    exact_mod_cast a.den_pos
  set n : ℕ := a.num.natAbs with hn
  set d : ℕ := a.den with hdd
  have haeq : a = (n : ℚ) / (d : ℚ) := by
    have hna : ((n : ℤ) : ℚ) = (a.num : ℚ) := by
      rw [hn, Int.natAbs_of_nonneg (le_of_lt hnum)]
    rw [hdd, show ((n : ℚ)) = ((n : ℤ) : ℚ) by push_cast; ring, hna, Rat.num_div_den]
  obtain ⟨hnl, hnu⟩ := nlog2_spec n (by omega)
  obtain ⟨hdl, hdu⟩ := nlog2_spec d a.den_pos
  set e0 : ℤ := (nlog2 n : ℤ) - (nlog2 d : ℤ) with he0
  -- upper bracket: a < pow2 (e0 + 1)
  have hub : a < pow2 (e0 + 1) := by
    rw [haeq, div_lt_iff₀ hd]
    calc (n : ℚ) < ((2 ^ (nlog2 n + 1) : ℕ) : ℚ) := by exact_mod_cast hnu
      _ = pow2 ((nlog2 n : ℤ) + 1) := by
          rw [show ((nlog2 n : ℤ) + 1) = ((nlog2 n + 1 : ℕ) : ℤ) by push_cast; ring,
            pow2_natCast]
      _ = pow2 (e0 + 1) * pow2 (nlog2 d) := by
          rw [← pow2_add]; congr 1; omega
      _ ≤ pow2 (e0 + 1) * (d : ℚ) := by
          refine mul_le_mul_of_nonneg_left ?_ (le_of_lt (pow2_pos _))
          rw [pow2_natCast]; exact_mod_cast hdl
  -- lower bracket: pow2 (e0 - 1) < a
  have hlb : pow2 (e0 - 1) < a := by
    rw [haeq, lt_div_iff₀ hd]
    calc pow2 (e0 - 1) * (d : ℚ) < pow2 (e0 - 1) * pow2 ((nlog2 d : ℤ) + 1) := by
          refine mul_lt_mul_of_pos_left ?_ (pow2_pos _)
          rw [show ((nlog2 d : ℤ) + 1) = ((nlog2 d + 1 : ℕ) : ℤ) by push_cast; ring,
            pow2_natCast]
          exact_mod_cast hdu
      _ = pow2 (nlog2 n) := by rw [← pow2_add]; congr 1; omega
      _ ≤ (n : ℚ) := by rw [pow2_natCast]; exact_mod_cast hnl
  -- the three branches of qlog2
  unfold qlog2
  rw [← hn, ← hdd, ← he0]
  by_cases h1 : pow2 (e0 + 1) ≤ a
  · exact absurd h1 (not_le.mpr hub)
  · rw [if_neg h1]
    by_cases h2 : pow2 e0 ≤ a
    · rw [if_pos h2]
      exact ⟨h2, hub⟩
    · rw [if_neg h2]
      constructor
      · exact le_of_lt hlb
      · rw [show e0 - 1 + 1 = e0 by ring]
        exact not_le.mp h2

/-! ### Rounding error bounds -/

theorem rndHalfEven_intCast (k : ℤ) : rndHalfEven (k : ℚ) = k := by
  unfold rndHalfEven
  rw [qfloor_eq, Int.floor_intCast]
  norm_num

theorem rndHalfEven_cases (m : ℚ) :
    rndHalfEven m = qfloor m ∨ rndHalfEven m = qfloor m + 1 := by
  unfold rndHalfEven
  split
  · exact Or.inl rfl
  · split
    · exact Or.inr rfl
    · split
      · exact Or.inl rfl
      · exact Or.inr rfl

theorem abs_rndHalfEven_sub_le (m : ℚ) : |(rndHalfEven m : ℚ) - m| ≤ 1/2 := by
  have hfl : ((qfloor m : ℤ) : ℚ) ≤ m := by rw [qfloor_eq]; exact Int.floor_le m
  have hfu : m < (qfloor m : ℚ) + 1 := by rw [qfloor_eq]; exact Int.lt_floor_add_one m
  unfold rndHalfEven
  split
  · next h => rw [abs_le]; constructor <;> linarith
  · next h =>
    push_cast
    split
    · next h2 => rw [abs_le]; constructor <;> push_cast <;> linarith
    · next h2 =>
      have : m - (qfloor m : ℚ) = 1/2 := by linarith
      split <;> (rw [abs_le]; constructor <;> push_cast <;> linarith)

theorem roundPos_nonneg (a : ℚ) (ha : 0 < a) : 0 ≤ roundPos a := by
  unfold roundPos
  have hg : 0 < pow2 (qlog2 a - 52) := pow2_pos _
  have hdiv : 0 < a / pow2 (qlog2 a - 52) := div_pos ha hg
  have hf : 0 ≤ qfloor (a / pow2 (qlog2 a - 52)) := by
    rw [qfloor_eq]; exact Int.floor_nonneg.mpr (le_of_lt hdiv)
  rcases rndHalfEven_cases (a / pow2 (qlog2 a - 52)) with h | h <;>
    (rw [h]; exact mul_nonneg hg.le (by exact_mod_cast (by omega : (0:ℤ) ≤ _)))

theorem pow2_zero : pow2 0 = 1 := by
  have := pow2_natCast 0
  simpa using this

theorem pow2_one : pow2 1 = 2 := by
  have := pow2_natCast 1
  simpa using this

theorem abs_roundPos_sub_le (a : ℚ) (ha : 0 < a) :
    |roundPos a - a| ≤ pow2 (qlog2 a - 53) := by
  unfold roundPos
  have hg : 0 < pow2 (qlog2 a - 52) := pow2_pos _
  set g := pow2 (qlog2 a - 52) with hgdef
  have hcancel : g * (a / g) = a := mul_div_cancel₀ a (ne_of_gt hg)
  have : g * (rndHalfEven (a / g) : ℚ) - a = g * ((rndHalfEven (a / g) : ℚ) - a / g) := by
    rw [mul_sub, hcancel]
  rw [this, abs_mul, abs_of_pos hg]
  have hb := abs_rndHalfEven_sub_le (a / g)
  have h2 : pow2 (qlog2 a - 52) = pow2 (qlog2 a - 53) * 2 := by
    rw [← pow2_one, ← pow2_add]; congr 1; ring
  calc g * |(rndHalfEven (a / g) : ℚ) - a / g| ≤ g * (1/2) :=
        mul_le_mul_of_nonneg_left hb hg.le
    _ = pow2 (qlog2 a - 53) := by rw [hgdef, h2]; ring

theorem abs_roundPos_sub_le_rel (a : ℚ) (ha : 0 < a) :
    |roundPos a - a| ≤ a * pow2 (-53) := by
  have h1 := abs_roundPos_sub_le a ha
  have h2 : pow2 (qlog2 a - 53) = pow2 (qlog2 a) * pow2 (-53) := by
    rw [show qlog2 a - 53 = qlog2 a + (-53) by ring, pow2_add]
  have h3 : pow2 (qlog2 a) ≤ a := (qlog2_spec a ha).1
  calc |roundPos a - a| ≤ pow2 (qlog2 a) * pow2 (-53) := by rw [← h2]; exact h1
    _ ≤ a * pow2 (-53) := mul_le_mul_of_nonneg_right h3 (pow2_pos _).le

theorem roundPos_intCast (k : ℤ) (h1 : 1 ≤ k) (h53 : k < 2 ^ 53) :
    roundPos (k : ℚ) = k := by
  have ha : 0 < ((k : ℤ) : ℚ) := by exact_mod_cast h1
  obtain ⟨hel, heu⟩ := qlog2_spec (k : ℚ) ha
  have he52 : qlog2 (k : ℚ) ≤ 52 := by
    by_contra hcon
    have h53le : (53 : ℤ) ≤ qlog2 (k : ℚ) := by omega
    have : pow2 53 ≤ pow2 (qlog2 (k : ℚ)) := pow2_le_pow2 h53le
    have hk53 : ((k : ℤ) : ℚ) < pow2 53 := by
      rw [show ((53:ℤ)) = ((53 : ℕ) : ℤ) by norm_num, pow2_natCast]
      exact_mod_cast h53
    linarith
  set e := qlog2 (k : ℚ) with he
  have hm : ((52 - e).toNat : ℤ) = (52 - e) := Int.toNat_of_nonneg (by omega)
  have hcast : (2:ℚ) ^ (52 - e).toNat = pow2 ((52 - e).toNat : ℤ) := by
    rw [pow2_natCast]; norm_cast
  have hprod : (2:ℚ) ^ (52 - e).toNat * pow2 (e - 52) = 1 := by
    rw [hcast, ← pow2_add, hm, show (52 - e + (e - 52) : ℤ) = 0 by ring, pow2_zero]
  have hdiv : (k : ℚ) / pow2 (e - 52) = ((k * 2 ^ (52 - e).toNat : ℤ) : ℚ) := by
    rw [div_eq_iff (ne_of_gt (pow2_pos (e - 52)))]
    push_cast
    rw [mul_assoc, hprod, mul_one]
  unfold roundPos
  rw [← he, hdiv, rndHalfEven_intCast]
  push_cast
  calc pow2 (e - 52) * ((k:ℚ) * 2 ^ (52 - e).toNat)
      = (k:ℚ) * ((2:ℚ) ^ (52 - e).toNat * pow2 (e - 52)) := by ring
    _ = (k:ℚ) := by rw [hprod, mul_one]

theorem roundB64_pos_eq (x : ℚ) (hx : 0 < x) : roundB64 x = roundPos x := by
  unfold roundB64
  rw [if_neg (ne_of_gt hx), if_neg (not_lt.mpr hx.le)]

theorem roundB64_nonpos {x : ℚ} (hx : x ≤ 0) : roundB64 x ≤ 0 := by
  unfold roundB64
  split
  · exact le_refl 0
  · next hne =>
    rw [if_pos (lt_of_le_of_ne hx hne)]
    have : 0 < -x := by
      have := lt_of_le_of_ne hx hne
      linarith
    linarith [roundPos_nonneg (-x) this]

theorem roundB64_intCast (k : ℤ) (h1 : 1 ≤ k) (h53 : k < 2 ^ 53) :
    roundB64 (k : ℚ) = k := by
  rw [roundB64_pos_eq _ (by exact_mod_cast h1)]
  exact roundPos_intCast k h1 h53

theorem rndHalfAway_of_near (y : ℚ) (t : ℤ) (h : |y - (t : ℚ)| < 1/2) :
    rndHalfAway y = t := by
  rcases abs_lt.mp h with ⟨hl, hu⟩
  unfold rndHalfAway
  split
  · rw [qfloor_eq, Int.floor_eq_iff]
    constructor <;> push_cast <;> linarith
  · rw [qfloor_eq]
    have : ⌊-y + 1/2⌋ = -t := by
      rw [Int.floor_eq_iff]
      constructor <;> push_cast <;> linarith
    omega

theorem rndHalfAway_nonpos {x : ℚ} (h : x ≤ 0) : rndHalfAway x ≤ 0 := by
  unfold rndHalfAway
  split
  · next h0 =>
    have hx0 : x = 0 := le_antisymm h h0
    rw [qfloor_eq, hx0]
    norm_num
  · next h0 =>
    have : (0:ℚ) ≤ -x + 1/2 := by linarith [not_le.mp h0]
    have := Int.floor_nonneg.mpr this
    rw [qfloor_eq]
    omega

theorem quantize2_nonpos {x : ℚ} (h : x ≤ 0) : quantize2 x ≤ 0 := by
  unfold quantize2
  have h1 : rndHalfAway (x * 100) ≤ 0 :=
    rndHalfAway_nonpos (mul_nonpos_iff.mpr (Or.inr ⟨h, by norm_num⟩))
  have h2 : ((rndHalfAway (x * 100) : ℤ) : ℚ) ≤ 0 := by exact_mod_cast h1
  exact div_nonpos_of_nonpos_of_nonneg h2 (by norm_num)

theorem quantize2_eq_of_near (x : ℚ) (t : ℤ) (h : |x - (t : ℚ)/100| < 1/200) :
    quantize2 x = (t : ℚ)/100 := by
  unfold quantize2
  rw [rndHalfAway_of_near (x * 100) t (by
    rw [show x * 100 - (t:ℚ) = 100 * (x - (t:ℚ)/100) by ring, abs_mul, abs_of_pos]
    · linarith [h]
    · norm_num)]

/-! ### Handler-level facts -/

theorem create_order_of_bad_status (order : OrderCreate) (w : World)
    (h : (w.catalog order.product_id).status_code ≠ 200) :
    create_order order w = (.error (.http 400 "product not found"), w) := by
  simp [create_order, h]

theorem create_order_of_stock_lt (order : OrderCreate) (w : World)
    (product : List (String × PyVal)) (pv : PyVal) (pf stq : ℚ)
    (h200 : (w.catalog order.product_id).status_code = 200)
    (hbody : (w.catalog order.product_id).body = some product)
    (hp : product.lookup "price" = some pv)
    (hpf : pyFloat pv = some pf)
    (hs : product.lookup "stock" = some (.num stq))
    (hlt : stq < (order.quantity : ℚ)) :
    create_order order w = (.error (.http 400 "insufficient stock"), w) := by
  simp [create_order, h200, hbody, hp, hpf, hs, pyLtInt, hlt]

/-- The row inserted (and returned after `db.refresh`) by a successful
`create_order` whose parsed price is `pf`. -/
theorem create_order_of_checks_pass (order : OrderCreate) (w : World)
    (product : List (String × PyVal)) (pv : PyVal) (pf stq : ℚ)
    (h200 : (w.catalog order.product_id).status_code = 200)
    (hbody : (w.catalog order.product_id).body = some product)
    (hp : product.lookup "price" = some pv)
    (hpf : pyFloat pv = some pf)
    (hs : product.lookup "stock" = some (.num stq))
    (hge : (order.quantity : ℚ) ≤ stq) :
    create_order order w =
      (.ok { id := (w.orders.length : ℤ) + 1
             user_id := order.user_id
             product_id := order.product_id
             quantity := order.quantity
             total := quantize2 (roundB64 (pf * roundB64 (order.quantity : ℚ)))
             status := "PENDING"
             created_at := w.now },
       { w with orders := w.orders ++
          [{ id := (w.orders.length : ℤ) + 1
             user_id := order.user_id
             product_id := order.product_id
             quantity := order.quantity
             total := quantize2 (roundB64 (pf * roundB64 (order.quantity : ℚ)))
             status := "PENDING"
             created_at := w.now }] }) := by
  simp [create_order, h200, hbody, hp, hpf, hs, pyLtInt, not_lt.mpr hge]

theorem create_order_of_body_none (order : OrderCreate) (w : World)
    (h200 : (w.catalog order.product_id).status_code = 200)
    (hbody : (w.catalog order.product_id).body = none) :
    create_order order w =
      (.error (.pyException "r.json() did not yield an object"), w) := by
  simp [create_order, h200, hbody]

theorem create_order_of_no_price (order : OrderCreate) (w : World)
    (product : List (String × PyVal))
    (h200 : (w.catalog order.product_id).status_code = 200)
    (hbody : (w.catalog order.product_id).body = some product)
    (hp : product.lookup "price" = none) :
    create_order order w = (.error (.pyException "KeyError: price"), w) := by
  simp [create_order, h200, hbody, hp]

theorem create_order_of_float_fail (order : OrderCreate) (w : World)
    (product : List (String × PyVal)) (pv : PyVal)
    (h200 : (w.catalog order.product_id).status_code = 200)
    (hbody : (w.catalog order.product_id).body = some product)
    (hp : product.lookup "price" = some pv)
    (hpf : pyFloat pv = none) :
    create_order order w =
      (.error (.pyException "float() argument not convertible"), w) := by
  simp [create_order, h200, hbody, hp, hpf]

theorem create_order_of_no_stock (order : OrderCreate) (w : World)
    (product : List (String × PyVal)) (pv : PyVal) (pf : ℚ)
    (h200 : (w.catalog order.product_id).status_code = 200)
    (hbody : (w.catalog order.product_id).body = some product)
    (hp : product.lookup "price" = some pv)
    (hpf : pyFloat pv = some pf)
    (hs : product.lookup "stock" = none) :
    create_order order w = (.error (.pyException "KeyError: stock"), w) := by
  simp [create_order, h200, hbody, hp, hpf, hs]

theorem create_order_of_cmp_fail (order : OrderCreate) (w : World)
    (product : List (String × PyVal)) (pv sv : PyVal) (pf : ℚ)
    (h200 : (w.catalog order.product_id).status_code = 200)
    (hbody : (w.catalog order.product_id).body = some product)
    (hp : product.lookup "price" = some pv)
    (hpf : pyFloat pv = some pf)
    (hs : product.lookup "stock" = some sv)
    (hcmp : pyLtInt sv order.quantity = none) :
    create_order order w =
      (.error (.pyException "TypeError: unorderable types"), w) := by
  simp [create_order, h200, hbody, hp, hpf, hs, hcmp]

theorem create_order_of_lt_true (order : OrderCreate) (w : World)
    (product : List (String × PyVal)) (pv sv : PyVal) (pf : ℚ)
    (h200 : (w.catalog order.product_id).status_code = 200)
    (hbody : (w.catalog order.product_id).body = some product)
    (hp : product.lookup "price" = some pv)
    (hpf : pyFloat pv = some pf)
    (hs : product.lookup "stock" = some sv)
    (hcmp : pyLtInt sv order.quantity = some true) :
    create_order order w = (.error (.http 400 "insufficient stock"), w) := by
  simp [create_order, h200, hbody, hp, hpf, hs, hcmp]

theorem create_order_of_lt_false (order : OrderCreate) (w : World)
    (product : List (String × PyVal)) (pv sv : PyVal) (pf : ℚ)
    (h200 : (w.catalog order.product_id).status_code = 200)
    (hbody : (w.catalog order.product_id).body = some product)
    (hp : product.lookup "price" = some pv)
    (hpf : pyFloat pv = some pf)
    (hs : product.lookup "stock" = some sv)
    (hcmp : pyLtInt sv order.quantity = some false) :
    create_order order w =
      (.ok { id := (w.orders.length : ℤ) + 1
             user_id := order.user_id
             product_id := order.product_id
             quantity := order.quantity
             total := quantize2 (roundB64 (pf * roundB64 (order.quantity : ℚ)))
             status := "PENDING"
             created_at := w.now },
       { w with orders := w.orders ++
          [{ id := (w.orders.length : ℤ) + 1
             user_id := order.user_id
             product_id := order.product_id
             quantity := order.quantity
             total := quantize2 (roundB64 (pf * roundB64 (order.quantity : ℚ)))
             status := "PENDING"
             created_at := w.now }] }) := by
  simp [create_order, h200, hbody, hp, hpf, hs, hcmp]

/-- Inversion: a successful `create_order` can only come from the final
branch, so the returned row is the appended row carrying the next serial
id and a `"PENDING"` status. -/
theorem create_order_ok_inv (order : OrderCreate) (w : World) (o : OrderRec)
    (h : (create_order order w).1 = .ok o) :
    create_order order w = (.ok o, { w with orders := w.orders ++ [o] }) ∧
    o.id = (w.orders.length : ℤ) + 1 ∧ o.status = "PENDING" := by
  by_cases h200 : (w.catalog order.product_id).status_code = 200
  · cases hbody : (w.catalog order.product_id).body with
    | none => rw [create_order_of_body_none order w h200 hbody] at h; simp at h
    | some product =>
      cases hp : product.lookup "price" with
      | none => rw [create_order_of_no_price order w product h200 hbody hp] at h; simp at h
      | some pv =>
        cases hpf : pyFloat pv with
        | none => rw [create_order_of_float_fail order w product pv h200 hbody hp hpf] at h
                  simp at h
        | some pf =>
          cases hs : product.lookup "stock" with
          | none => rw [create_order_of_no_stock order w product pv pf h200 hbody hp hpf hs] at h
                    simp at h
          | some sv =>
            cases hcmp : pyLtInt sv order.quantity with
            | none =>
              rw [create_order_of_cmp_fail order w product pv sv pf h200 hbody hp hpf hs hcmp] at h
              simp at h
            | some b =>
              cases b with
              | true =>
                rw [create_order_of_lt_true order w product pv sv pf h200 hbody hp hpf hs hcmp] at h
                simp at h
              | false =>
                have heq := create_order_of_lt_false order w product pv sv pf h200 hbody hp hpf hs hcmp
                rw [heq] at h
                dsimp only at h
                injection h with h2
                subst h2
                exact ⟨heq, rfl, rfl⟩
  · rw [create_order_of_bad_status order w h200] at h; simp at h

theorem get_order_of_find_none (w : World) (oid : ℤ)
    (h : w.orders.find? (fun o => o.id == oid) = none) :
    get_order oid w = (.error (.http 404 "not found"), w) := by
  simp [get_order, h]

theorem get_order_of_find_some (w : World) (oid : ℤ) (o : OrderRec)
    (h : w.orders.find? (fun o => o.id == oid) = some o) :
    get_order oid w = (.ok o, w) := by
  simp [get_order, h]

/-- In a well-formed store every id is between 1 and the row count. -/
theorem StoreWF.id_le {l : List OrderRec} (hwf : StoreWF l) {o : OrderRec}
    (ho : o ∈ l) : 1 ≤ o.id ∧ o.id ≤ (l.length : ℤ) := by
  have hmem : o.id ∈ l.map OrderRec.id := List.mem_map_of_mem _ ho
  rw [hwf] at hmem
  rcases List.mem_map.mp hmem with ⟨i, hi, hid⟩
  rw [List.mem_range] at hi
  omega

/-! ### Exactness of the computed total for two-decimal prices -/

/-- For a price with at most two decimal places (`p/100`) and a positive
quantity with `p·q ≤ 10^12`, the binary64 evaluation of
`float(price) * quantity` followed by the `Numeric(10,2)` quantization
recovers the exact decimal product: the accumulated relative error
(2 parsings + 1 multiplication, each ≤ 2^-53) stays far below the half-cent
rounding radius. -/
theorem float_total_exact (p : ℕ) (q : ℤ) (hp : 1 ≤ p) (hq : 1 ≤ q)
    (hbound : (p : ℤ) * q ≤ 10 ^ 12) :
    quantize2 (roundB64 (roundB64 ((p : ℚ) / 100) * roundB64 (q : ℚ))) =
      ((p : ℚ) * (q : ℚ)) / 100 := by
  have hp0 : (0:ℚ) < (p:ℚ) := by exact_mod_cast Nat.lt_of_lt_of_le Nat.zero_lt_one hp
  have hq0 : (0:ℚ) < (q:ℚ) := by exact_mod_cast hq
  have hpz : (1:ℤ) ≤ (p:ℤ) := by exact_mod_cast hp
  -- the rounding unit
  have hδval : pow2 (-53) = (9007199254740992 : ℚ)⁻¹ := by
    unfold pow2
    rw [show Int.toNat (-(-53)) = 53 from rfl]
    norm_num
  set δ : ℚ := pow2 (-53) with hδdef
  have hδ0 : 0 < δ := pow2_pos _
  have hδlt : δ < 1 := by rw [hδval]; norm_num
  -- quantity is exactly representable
  have hq53 : q < 2 ^ 53 := by
    have h1 : q ≤ (p:ℤ) * q := le_mul_of_one_le_left (by omega) hpz
    have h2 : (10:ℤ)^12 < 2^53 := by norm_num
    omega
  have hrq : roundB64 (q : ℚ) = (q : ℚ) := roundB64_intCast q hq hq53
  -- the parsed price
  set pr : ℚ := (p:ℚ)/100 with hprdef
  have hpr0 : 0 < pr := by rw [hprdef]; positivity
  have e1 : |roundB64 pr - pr| ≤ pr * δ := by
    rw [roundB64_pos_eq pr hpr0, hδdef]
    exact abs_roundPos_sub_le_rel pr hpr0
  set pf : ℚ := roundB64 pr with hpfdef
  have hpf_pos : 0 < pf := by
    rcases abs_le.mp e1 with ⟨el, _⟩
    nlinarith [mul_pos hpr0 (by linarith : (0:ℚ) < 1 - δ)]
  -- the product and its rounding
  have ht0 : 0 < pf * (q:ℚ) := mul_pos hpf_pos hq0
  have e2 : |roundB64 (pf * (q:ℚ)) - pf * (q:ℚ)| ≤ (pf * (q:ℚ)) * δ := by
    rw [roundB64_pos_eq _ ht0, hδdef]
    exact abs_roundPos_sub_le_rel _ ht0
  set P : ℚ := pr * (q:ℚ) with hPdef
  have hP0 : 0 < P := mul_pos hpr0 hq0
  have hPbound : P ≤ 10 ^ 10 := by
    rw [hPdef, hprdef, div_mul_eq_mul_div, div_le_iff₀ (by norm_num : (0:ℚ) < 100)]
    have hc : ((p:ℤ) * q : ℚ) ≤ ((10 ^ 12 : ℤ) : ℚ) := by exact_mod_cast hbound
    push_cast at hc
    linarith
  have e3 : |pf * (q:ℚ) - P| ≤ P * δ := by
    rw [hPdef, ← sub_mul, abs_mul, abs_of_pos hq0]
    calc |pf - pr| * (q:ℚ) ≤ (pr * δ) * (q:ℚ) := mul_le_mul_of_nonneg_right e1 hq0.le
      _ = (pr * (q:ℚ)) * δ := by ring
  have ht_le : pf * (q:ℚ) ≤ P + P * δ := by
    rcases abs_le.mp e3 with ⟨_, hu⟩; linarith
  have e4 : |roundB64 (pf * (q:ℚ)) - P| < 1/200 := by
    have habs := abs_sub_le (roundB64 (pf * (q:ℚ))) (pf * (q:ℚ)) P
    have h5 : (pf * (q:ℚ)) * δ ≤ (P + P * δ) * δ := mul_le_mul_of_nonneg_right ht_le hδ0.le
    have hδsq : δ * δ ≤ δ := by nlinarith
    have h7 : P * (δ * δ) ≤ P * δ := mul_le_mul_of_nonneg_left hδsq hP0.le
    have hexp : (P + P * δ) * δ = P * δ + P * (δ * δ) := by ring
    have h6 : |roundB64 (pf * (q:ℚ)) - P| ≤ 3 * (P * δ) := by linarith
    have h8 : 3 * (P * δ) < 1/200 := by
      rw [hδval]
      have h9 : P * (9007199254740992 : ℚ)⁻¹ ≤ 10 ^ 10 * (9007199254740992 : ℚ)⁻¹ :=
        mul_le_mul_of_nonneg_right hPbound (by norm_num)
      have h10 : (3:ℚ) * (10 ^ 10 * (9007199254740992 : ℚ)⁻¹) < 1/200 := by norm_num
      linarith
    linarith
  -- conclude via the half-cent recovery of quantize2
  have hfinal := quantize2_eq_of_near (roundB64 (pf * (q:ℚ))) ((p:ℤ) * q) (by
    have hcast : (((p:ℤ) * q : ℤ) : ℚ) / 100 = P := by
      rw [hPdef, hprdef]; push_cast; ring
    rw [hcast]; exact e4)
  rw [hrq, hfinal]
  push_cast
  ring

/-! ### Claims -/

unseal Rat.add Rat.mul Rat.inv Rat.sub in
/-- C1 (counterexample): the claim "total equals price × quantity computed
with exact fixed-point decimal arithmetic, the external price parsed
without precision loss" is false on the code.  With catalog price 9.999
(stock 5) and quantity 1, the checks pass but the returned/persisted total
is 10.00 — the price goes through binary64 `float()` and the
`Numeric(10,2)` column — while the exact product is 9.999. -/
theorem createOrder_subcent_price_total_not_exact :
    (create_order ⟨1, 7, 1⟩ subCentWorld).1 =
      .ok { id := 1, user_id := 1, product_id := 7, quantity := 1,
            total := 10, status := "PENDING", created_at := 1735689600 } ∧
    (10 : ℚ) ≠ (9999/1000 : ℚ) * 1 := by
  constructor
  · decide
  · decide

/-- C1 (amended): whenever the catalog lookup succeeds with a price that is
a whole number of cents (`p/100`, the generic case for currency data), the
stock check passes, and `p · quantity ≤ 10^12`, `create_order` returns an
Order whose total is *exactly* `price × quantity` (the binary64 product
re-quantized by the `Numeric(10,2)` column recovers the exact fixed-point
value; e.g. 9.99 × 3 = 29.97 exactly) and whose status is `"PENDING"`.
Prices finer than one cent (e.g. 9.999) can lose precision — see the
counterexample. -/
theorem createOrder_total_exact_for_cent_prices
    (order : OrderCreate) (w : World) (product : List (String × PyVal))
    (p : ℕ) (stq : ℚ)
    (h200 : (w.catalog order.product_id).status_code = 200)
    (hbody : (w.catalog order.product_id).body = some product)
    (hp : product.lookup "price" = some (.num ((p : ℚ) / 100)))
    (hs : product.lookup "stock" = some (.num stq))
    (hge : (order.quantity : ℚ) ≤ stq)
    (hp1 : 1 ≤ p) (hq1 : 1 ≤ order.quantity)
    (hbound : (p : ℤ) * order.quantity ≤ 10 ^ 12) :
    create_order order w =
      (.ok { id := (w.orders.length : ℤ) + 1
             user_id := order.user_id
             product_id := order.product_id
             quantity := order.quantity
             total := ((p : ℚ) * (order.quantity : ℚ)) / 100
             status := "PENDING"
             created_at := w.now },
       { w with orders := w.orders ++
          [{ id := (w.orders.length : ℤ) + 1
             user_id := order.user_id
             product_id := order.product_id
             quantity := order.quantity
             total := ((p : ℚ) * (order.quantity : ℚ)) / 100
             status := "PENDING"
             created_at := w.now }] }) := by
  have h := create_order_of_checks_pass order w product (.num ((p : ℚ) / 100))
    (roundB64 ((p : ℚ) / 100)) stq h200 hbody hp rfl hs hge
  rw [h, float_total_exact p order.quantity hp1 hq1 hbound]

unseal Rat.add Rat.mul Rat.inv Rat.sub in
/-- C1 (witness): the documented scenario — price 9.99, stock 10,
quantity 3 — produces total exactly 29.97 and status `"PENDING"`. -/
theorem createOrder_total_exact_for_cent_prices_witness :
    (create_order ⟨1, 42, 3⟩ demoWorld).1 =
      .ok { id := 1, user_id := 1, product_id := 42, quantity := 3,
            total := 2997/100, status := "PENDING", created_at := 1735689600 } := by
  rw [createOrder_total_exact_for_cent_prices ⟨1, 42, 3⟩ demoWorld
    [("price", .num ((999 : ℚ) / 100)), ("stock", .num 10)] 999 10
    (by decide) (by decide) (by decide) (by decide) (by decide)
    (by decide) (by decide) (by decide)]
  decide

/-- C2: for every request where the catalog answers with a status other
than 200 (in particular every non-success status), `create_order` fails
with the `InvalidProduct` client error — `HTTPException(400, "product not
found")` — and the state, the order store included, is unchanged. -/
theorem createOrder_invalid_product (order : OrderCreate) (w : World)
    (h : (w.catalog order.product_id).status_code ≠ 200) :
    create_order order w = (.error (.http 400 "product not found"), w) :=
  create_order_of_bad_status order w h

/-- C2 (witness): product 99 gets a 404 from the demo catalog. -/
theorem createOrder_invalid_product_witness :
    (demoWorld.catalog 99).status_code ≠ 200 ∧
    create_order ⟨1, 99, 1⟩ demoWorld =
      (.error (.http 400 "product not found"), demoWorld) :=
  ⟨by decide, createOrder_invalid_product ⟨1, 99, 1⟩ demoWorld (by decide)⟩

/-- C3: when the catalog lookup succeeds (status 200 with a usable body)
but the reported stock is strictly below the requested quantity,
`create_order` fails with the `InsufficientStock` client error —
`HTTPException(400, "insufficient stock")` — and the state, the order
store included, is unchanged. -/
theorem createOrder_insufficient_stock (order : OrderCreate) (w : World)
    (product : List (String × PyVal)) (pv : PyVal) (pf stq : ℚ)
    (h200 : (w.catalog order.product_id).status_code = 200)
    (hbody : (w.catalog order.product_id).body = some product)
    (hp : product.lookup "price" = some pv)
    (hpf : pyFloat pv = some pf)
    (hs : product.lookup "stock" = some (.num stq))
    (hlt : stq < (order.quantity : ℚ)) :
    create_order order w = (.error (.http 400 "insufficient stock"), w) :=
  create_order_of_stock_lt order w product pv pf stq h200 hbody hp hpf hs hlt

unseal Rat.add Rat.mul Rat.inv Rat.sub in
/-- C3 (witness): quantity 100 against stock 10. -/
theorem createOrder_insufficient_stock_witness :
    create_order ⟨1, 42, 100⟩ demoWorld =
      (.error (.http 400 "insufficient stock"), demoWorld) :=
  createOrder_insufficient_stock ⟨1, 42, 100⟩ demoWorld
    [("price", .num (999/100)), ("stock", .num 10)] (.num (999/100))
    (roundB64 (999/100)) 10
    (by decide) (by decide) (by decide) (by decide) (by decide) (by decide)

/-- C4: round-trip — an Order returned by a successful `create_order`
against a well-formed store is retrievable by `get_order` under its
assigned id, with the identical record (all fields equal) returned and
the store untouched by the read. -/
theorem createOrder_getOrder_roundtrip (order : OrderCreate) (w : World)
    (o : OrderRec)
    (hwf : StoreWF w.orders)
    (hok : (create_order order w).1 = .ok o) :
    get_order o.id ((create_order order w).2) =
      (.ok o, (create_order order w).2) := by
  obtain ⟨heq, hid, _⟩ := create_order_ok_inv order w o hok
  rw [heq]
  dsimp only
  apply get_order_of_find_some
  rw [List.find?_append]
  have hnone : w.orders.find? (fun x => x.id == o.id) = none := by
    rw [List.find?_eq_none]
    intro x hx
    have hb := (StoreWF.id_le hwf hx).2
    simp only [beq_iff_eq]
    omega
  rw [hnone]
  simp

unseal Rat.add Rat.mul Rat.inv Rat.sub in
/-- C4 (witness): the demo scenario order is read back unchanged. -/
theorem createOrder_getOrder_roundtrip_witness :
    get_order 1 ((create_order ⟨1, 42, 3⟩ demoWorld).2) =
      (.ok demoRec, (create_order ⟨1, 42, 3⟩ demoWorld).2) :=
  createOrder_getOrder_roundtrip ⟨1, 42, 3⟩ demoWorld demoRec
    (by decide) (by decide)

/-- C5: `get_order` fails with `NotFound` — `HTTPException(404, "not
found")` — iff no persisted record carries the requested id; any record it
does return is a member of the store with the requested id; and the
lookup never modifies the store. -/
theorem getOrder_notFound_iff (w : World) (oid : ℤ) :
    ((get_order oid w).1 = .error (.http 404 "not found") ↔
      ∀ o ∈ w.orders, o.id ≠ oid) ∧
    (∀ o : OrderRec, (get_order oid w).1 = .ok o → o ∈ w.orders ∧ o.id = oid) ∧
    (get_order oid w).2 = w := by
  cases hfind : w.orders.find? (fun o => o.id == oid) with
  | none =>
    rw [get_order_of_find_none w oid hfind]
    refine ⟨⟨fun _ o ho => ?_, fun _ => rfl⟩, fun o ho => ?_, rfl⟩
    · have := List.find?_eq_none.mp hfind o ho
      simpa using this
    · simp at ho
  | some o' =>
    rw [get_order_of_find_some w oid o' hfind]
    have hpred : o'.id = oid := by
      have := List.find?_some hfind
      simpa using this
    have hmem : o' ∈ w.orders := List.mem_of_find?_eq_some hfind
    refine ⟨⟨fun h => ?_, fun h => ?_⟩, fun o ho => ?_, rfl⟩
    · simp at h
    · exact absurd hpred (h o' hmem)
    · have hoo : o' = o := by simpa using ho
      exact hoo ▸ ⟨hmem, hpred⟩

/-- C5 (witness): the documented scenario `getOrder(9999)` against a store
holding only id 1 fails with 404 "not found". -/
theorem getOrder_notFound_iff_witness :
    (get_order 9999 storedWorld).1 = .error (.http 404 "not found") :=
  (getOrder_notFound_iff storedWorld 9999).1.mpr (by decide)

/-- C6: `get_order` is idempotent — it never modifies the store, repeating
the call against the state it returns gives the identical result, and a
non-existent id always yields `NotFound`. -/
theorem getOrder_idempotent (w : World) (oid : ℤ) :
    (get_order oid w).2 = w ∧
    get_order oid ((get_order oid w).2) = get_order oid w ∧
    ((∀ o ∈ w.orders, o.id ≠ oid) →
      (get_order oid w).1 = .error (.http 404 "not found")) := by
  have h2 : (get_order oid w).2 = w := by
    cases hfind : w.orders.find? (fun o => o.id == oid) with
    | none => rw [get_order_of_find_none w oid hfind]
    | some o => rw [get_order_of_find_some w oid o hfind]
  refine ⟨h2, by rw [h2], fun habs => ?_⟩
  have hfind : w.orders.find? (fun o => o.id == oid) = none := by
    rw [List.find?_eq_none]
    intro x hx
    simpa using habs x hx
  rw [get_order_of_find_none w oid hfind]

/-- C6 (witness): reading absent id 9999 twice: state unchanged, 404. -/
theorem getOrder_idempotent_witness :
    (get_order 9999 storedWorld).2 = storedWorld ∧
    (get_order 9999 storedWorld).1 = .error (.http 404 "not found") :=
  ⟨(getOrder_idempotent storedWorld 9999).1,
   (getOrder_idempotent storedWorld 9999).2.2 (by decide)⟩

/-- C7: a non-positive quantity passes validation — with a successful
catalog lookup (non-negative parsed price) and a passing stock check the
request is accepted, and the resulting order's total is non-positive. -/
theorem createOrder_nonpositive_quantity_accepted (order : OrderCreate)
    (w : World) (product : List (String × PyVal)) (pv : PyVal) (pf stq : ℚ)
    (h200 : (w.catalog order.product_id).status_code = 200)
    (hbody : (w.catalog order.product_id).body = some product)
    (hp : product.lookup "price" = some pv)
    (hpf : pyFloat pv = some pf)
    (hpf0 : 0 ≤ pf)
    (hs : product.lookup "stock" = some (.num stq))
    (hq : order.quantity ≤ 0)
    (hge : (order.quantity : ℚ) ≤ stq) :
    ∃ o : OrderRec, (create_order order w).1 = .ok o ∧ o.total ≤ 0 := by
  have h := create_order_of_checks_pass order w product pv pf stq
    h200 hbody hp hpf hs hge
  refine ⟨_, by rw [h], ?_⟩
  show quantize2 (roundB64 (pf * roundB64 (order.quantity : ℚ))) ≤ 0
  apply quantize2_nonpos
  apply roundB64_nonpos
  have h1 : roundB64 ((order.quantity : ℚ)) ≤ 0 :=
    roundB64_nonpos (by exact_mod_cast hq)
  exact mul_nonpos_iff.mpr (Or.inl ⟨hpf0, h1⟩)

unseal Rat.add Rat.mul Rat.inv Rat.sub in
/-- C7 (witness): quantity −2 against price 9.99, stock 10 is accepted with
a non-positive total. -/
theorem createOrder_nonpositive_quantity_witness :
    ∃ o : OrderRec, (create_order ⟨1, 42, -2⟩ demoWorld).1 = .ok o ∧
      o.total ≤ 0 :=
  createOrder_nonpositive_quantity_accepted ⟨1, 42, -2⟩ demoWorld
    [("price", .num (999/100)), ("stock", .num 10)] (.num (999/100))
    (roundB64 (999/100)) 10
    (by decide) (by decide) (by decide) (by decide) (by decide)
    (by decide) (by decide) (by decide)

/-- C8: `healthz` returns the literal `"ok"` with status 200 in every
state, consults nothing, and changes nothing. -/
theorem healthz_constant_ok (w : World) : healthz w = (("ok", 200), w) := rfl

/-- C9 (implicit): on a 200 catalog response whose JSON object is
malformed at the point of use — no `"price"` key, a `"price"` value
`float()` cannot convert, or no `"stock"` key — `create_order` raises
an unhandled Python exception (a generic server error, not one of the
documented 400 client errors) and the store is unchanged. -/
theorem createOrder_malformed_body_unhandled (order : OrderCreate)
    (w : World) (product : List (String × PyVal))
    (h200 : (w.catalog order.product_id).status_code = 200)
    (hbody : (w.catalog order.product_id).body = some product)
    (hbad : product.lookup "price" = none ∨
            (∃ pv, product.lookup "price" = some pv ∧ pyFloat pv = none) ∨
            product.lookup "stock" = none) :
    ∃ msg, create_order order w = (.error (.pyException msg), w) := by
  rcases hbad with h1 | ⟨pv, hp, hn⟩ | hstock
  · exact ⟨_, create_order_of_no_price order w product h200 hbody h1⟩
  · exact ⟨_, create_order_of_float_fail order w product pv h200 hbody hp hn⟩
  · cases hp : product.lookup "price" with
    | none => exact ⟨_, create_order_of_no_price order w product h200 hbody hp⟩
    | some pv =>
      cases hf : pyFloat pv with
      | none => exact ⟨_, create_order_of_float_fail order w product pv h200 hbody hp hf⟩
      | some pf =>
        exact ⟨_, create_order_of_no_stock order w product pv pf h200 hbody hp hf hstock⟩

/-- C9 (witness): a 200 body that lacks `"price"` raises. -/
theorem createOrder_malformed_body_witness :
    ∃ msg, create_order ⟨1, 5, 1⟩ noPriceWorld =
      (.error (.pyException msg), noPriceWorld) :=
  createOrder_malformed_body_unhandled ⟨1, 5, 1⟩ noPriceWorld
    [("stock", .num 5)] (by decide) (by decide) (Or.inl (by decide))

/-- C10 (implicit): stock exactly equal to the requested quantity passes
the (strict) insufficiency check: the order is accepted and appended to
the store, and `create_order` leaves the catalog — hence the stock it
reports — untouched. -/
theorem createOrder_stock_boundary_accepted (order : OrderCreate)
    (w : World) (product : List (String × PyVal)) (pv : PyVal) (pf stq : ℚ)
    (h200 : (w.catalog order.product_id).status_code = 200)
    (hbody : (w.catalog order.product_id).body = some product)
    (hp : product.lookup "price" = some pv)
    (hpf : pyFloat pv = some pf)
    (hs : product.lookup "stock" = some (.num stq))
    (heq : stq = (order.quantity : ℚ)) :
    ∃ o : OrderRec,
      (create_order order w).1 = .ok o ∧
      (create_order order w).2.orders = w.orders ++ [o] ∧
      (create_order order w).2.catalog = w.catalog := by
  have h := create_order_of_checks_pass order w product pv pf stq
    h200 hbody hp hpf hs (le_of_eq heq.symm)
  exact ⟨_, by rw [h], by rw [h], by rw [h]⟩

unseal Rat.add Rat.mul Rat.inv Rat.sub in
/-- C10 (witness): quantity 10 against stock 10 is accepted. -/
theorem createOrder_stock_boundary_witness :
    ∃ o : OrderRec,
      (create_order ⟨1, 42, 10⟩ demoWorld).1 = .ok o ∧
      (create_order ⟨1, 42, 10⟩ demoWorld).2.orders = demoWorld.orders ++ [o] ∧
      (create_order ⟨1, 42, 10⟩ demoWorld).2.catalog = demoWorld.catalog :=
  createOrder_stock_boundary_accepted ⟨1, 42, 10⟩ demoWorld
    [("price", .num (999/100)), ("stock", .num 10)] (.num (999/100))
    (roundB64 (999/100)) 10
    (by decide) (by decide) (by decide) (by decide) (by decide) (by decide)

end OrderService
